import Mathlib

/-!
Shallow embedding of the Order-Service-API order lifecycle and inventory
code: the `OrderService` class (createOrder, payOrder, cancelOrder, the
shipped variant with ownership checks), the Mongoose document schemas of
`src/models/Order.ts` and `src/models/Product.ts`, the repository layer,
the order controller's Zod validation, and the `POST /orders` route.

Modelling choices:
  - The two Mongo collections are association lists keyed by `_id`;
    `lookupA` is `findById` / `findOne` on `_id`, `setA` is the update
    part of `findOneAndUpdate` (it touches only the matching document).
  - Machine numbers are `Int` (prices are integer cents, stocks and
    quantities integers; the schemas validate integrality, so `Int` is
    exact).  `stock ≥ 0` is NOT built into the type: it is the invariant
    to be proved.
  - A Mongo transaction (ClientSession) is modelled by threading a
    tentative state `cur` for session-bound operations while
    session-less reads (`productRepo.findById`, `orderRepo.findById`)
    read the committed state `base`; `commitTransaction` returns `cur`,
    `abortTransaction` returns `base`.
  - Thrown `Error(message)` is `Except String` with the exact message
    strings of the source.
  - `cancelOrder` additionally takes a failure schedule `fails : Nat →
    Bool` saying which session write (counted from 0) the store makes
    throw, modelling a database error in the middle of the transaction;
    the shipped behaviour is the schedule `neverFail`.
-/

namespace OrderSvc

deriving instance DecidableEq for Except

/-- Product document (src/models/Product.ts): name, integer `price` in
cents, integer `stock`. -/
structure Product where
  name : String
  price : Int
  stock : Int
  deriving Repr, DecidableEq

/-- Order status enum (src/models/Order.ts, `OrderStatus`). -/
inductive OrderStatus where
  | created
  | paid
  | cancelled
  deriving Repr, DecidableEq

/-- Order line item (`IOrderItem`): `unitPrice` is stored at purchase
time. -/
structure OrderItem where
  productId : String
  quantity : Int
  unitPrice : Int
  deriving Repr, DecidableEq

/-- Order document (`IOrder`), restricted to the fields the service
logic reads or writes. -/
structure Order where
  userId : String
  items : List OrderItem
  total : Int
  status : OrderStatus
  deriving Repr, DecidableEq

/-- One requested line of a createOrder call
(`{ productId: string; quantity: number }`). -/
structure ReqItem where
  productId : String
  quantity : Int
  deriving Repr, DecidableEq

/-- Database state: the product and order collections, keyed by `_id`. -/
structure St where
  products : List (String × Product)
  orders : List (String × Order)
  deriving Repr, DecidableEq

/-- Key lookup in a collection (Mongo `findById`). -/
def lookupA {α : Type} : List (String × α) → String → Option α
  | [], _ => none
  | kv :: rest, k => if kv.1 = k then some kv.2 else lookupA rest k

/-- Replace the document stored under key `k`, leaving every other
document unchanged (the write half of `findOneAndUpdate`). -/
def setA {α : Type} (l : List (String × α)) (k : String) (v : α) : List (String × α) :=
  l.map fun kv => if kv.1 = k then (k, v) else kv

/-- The conditional stock decrement of `OrderService.createOrder`:
`findOneAndUpdate({ _id: pid, stock: { $gte: qty } }, { $inc: { stock: -qty } })`.
Returns `none` (the rejected write) when no document matches the filter,
i.e. when the product is absent or its stock is below `qty` at the
moment of the write. -/
def condDecrement (st : St) (pid : String) (qty : Int) : Option St :=
  match lookupA st.products pid with
  | none => none
  | some p =>
    if qty ≤ p.stock then
      some { st with products := setA st.products pid { p with stock := p.stock - qty } }
    else none

/-- The unconditional stock restore of `OrderService.cancelOrder`:
`findOneAndUpdate({ _id: pid }, { $inc: { stock: qty } })`.  The result
is ignored by the source, so a missing product is a no-op. -/
def incrementStock (st : St) (pid : String) (qty : Int) : St :=
  match lookupA st.products pid with
  | none => st
  | some p => { st with products := setA st.products pid { p with stock := p.stock + qty } }

/-- Mongoose document validation run by `orderRepo.create` (OrderSchema
and OrderItemSchema): every item quantity ≥ 1, every unitPrice ≥ 0, and
total ≥ 0 (all validated integers; exact in `Int`). -/
def orderDocValid (o : Order) : Bool :=
  o.items.all (fun it => 1 ≤ it.quantity && 0 ≤ it.unitPrice) && 0 ≤ o.total

/-- `orderRepo.create(data, session)`: `new OrderModel(data).save({ session })`.
Fails on a duplicate `_id` (Mongo unique index) or when schema
validation rejects the document. -/
def orderCreate (st : St) (oid : String) (o : Order) : Except String St :=
  match lookupA st.orders oid with
  | some _ => .error "duplicate key"
  | none =>
    if orderDocValid o then .ok { st with orders := (oid, o) :: st.orders }
    else .error "Order validation failed"

/-- `orderRepo.update(orderId, { status }, session?)`: `findByIdAndUpdate`
with `{ new: true }`; returns the updated document, or `none` when the
order does not exist. -/
def orderSetStatus (st : St) (oid : String) (s : OrderStatus) : Option (Order × St) :=
  match lookupA st.orders oid with
  | none => none
  | some o =>
    let o2 := { o with status := s }
    some (o2, { st with orders := setA st.orders oid o2 })

/-- The per-item loop of `OrderService.createOrder`: for each requested
item in input order, `productRepo.findById` (a session-less read against
the committed state `base`), the stock pre-check, accumulation of
`total` and `orderItems`, then the conditional decrement against the
session state `cur`.  Returns the reserved lines, the running total and
the final session state. -/
def reserveLoop (base : St) : St → List ReqItem → Except String (List OrderItem × Int × St)
  | cur, [] => .ok ([], 0, cur)
  | cur, item :: rest =>
    match lookupA base.products item.productId with
    | none => .error ("Product " ++ item.productId ++ " not found")
    | some product =>
      if product.stock < item.quantity then
        .error ("Insufficient stock for product " ++ product.name)
      else
        match condDecrement cur item.productId item.quantity with
        | none => .error ("Insufficient stock for product " ++ product.name ++ " (race condition)")
        | some cur2 =>
          match reserveLoop base cur2 rest with
          | .error e => .error e
          | .ok (lines, subtotal, final) =>
            .ok ({ productId := item.productId, quantity := item.quantity,
                   unitPrice := product.price } :: lines,
                 product.price * item.quantity + subtotal, final)

/-- `OrderService.createOrder` (the shipped variant): start a session,
reserve every item, create the order inside the session, commit; on any
thrown error abort, so the committed state is returned unchanged.
`oid` is the fresh `_id` the `OrderSchema` default generator produces. -/
def createOrder (st : St) (oid userId : String) (items : List ReqItem) :
    Except String Order × St :=
  match reserveLoop st st items with
  | .error e => (.error e, st)
  | .ok (lines, total, cur) =>
    let order : Order := { userId := userId, items := lines, total := total,
                           status := .created }
    match orderCreate cur oid order with
    | .error e => (.error e, st)
    | .ok cur2 => (.ok order, cur2)

/-- `OrderService.payOrder` (the shipped variant, with the ownership
check): load the order, authorize, return it unchanged when already
paid, reject a cancelled order, otherwise write status `paid` (this
operation opens no session: its single write needs no transaction). -/
def payOrder (st : St) (orderId userId role : String) : Except String Order × St :=
  match lookupA st.orders orderId with
  | none => (.error "Order not found", st)
  | some order =>
    if role ≠ "admin" ∧ order.userId ≠ userId then
      (.error "You can only pay for your own orders", st)
    else if order.status = .paid then (.ok order, st)
    else if order.status = .cancelled then (.error "Order is cancelled", st)
    else
      match orderSetStatus st orderId .paid with
      | none => (.error "Failed to update order", st)
      | some (o2, st2) => (.ok o2, st2)

/-- Failure schedule under which no session write throws: the shipped
behaviour of the store when it raises no error. -/
def neverFail : Nat → Bool := fun _ => false

/-- The stock-restore loop of `OrderService.cancelOrder`, with the write
counter `n` threaded through the failure schedule: each `$inc` restore
is one session write and throws a database error when the schedule says
so. -/
def restoreLoop (fails : Nat → Bool) : Nat → St → List OrderItem → Except String (St × Nat)
  | n, cur, [] => .ok (cur, n)
  | n, cur, it :: rest =>
    if fails n then .error "Database error"
    else restoreLoop fails (n + 1) (incrementStock cur it.productId it.quantity) rest

/-- `OrderService.cancelOrder` (the shipped variant): load the order,
authorize, short-circuit when already cancelled (abort, no write),
forbid a non-admin cancelling a paid order, otherwise restore stock for
every item and write status `cancelled` inside the session; any thrown
error aborts the transaction, returning the committed state unchanged.
`fails` is the store's failure schedule over the session writes. -/
def cancelOrder (fails : Nat → Bool) (st : St) (orderId userId role : String) :
    Except String Order × St :=
  match lookupA st.orders orderId with
  | none => (.error "Order not found", st)
  | some order =>
    if role ≠ "admin" ∧ order.userId ≠ userId then
      (.error "You can only cancel your own orders", st)
    else if order.status = .cancelled then (.ok order, st)
    else if role ≠ "admin" ∧ order.status = .paid then
      (.error "Cannot cancel paid orders. Please contact support for refunds.", st)
    else
      match restoreLoop fails 0 st order.items with
      | .error e => (.error e, st)
      | .ok (cur, n) =>
        if fails n then (.error "Database error", st)
        else
          match orderSetStatus cur orderId .cancelled with
          | none => (.error "Failed to update order", st)
          | some (o2, cur2) => (.ok o2, cur2)

/-- The price patch of `productController.updateProduct` going through
`BaseRepository.update` (`findByIdAndUpdate(id, { price }, { new: true })`):
changes only the named product's price. -/
def updateProductPrice (st : St) (pid : String) (newPrice : Int) : St :=
  match lookupA st.products pid with
  | none => st
  | some p => { st with products := setA st.products pid { p with price := newPrice } }

/-- The controller-side Zod validation of a create-order request
(`CreateOrderZodSchema`: `items` is an array of at least one element,
each `quantity` a positive integer; the `productId` uuid-format check is
not modelled as no claim depends on identifier shape). -/
def zodValidateCreateOrder (items : List ReqItem) : Bool :=
  decide (1 ≤ items.length) && items.all (fun it => 1 ≤ it.quantity)

/-- `orderController.createOrder` (src controllers): parse the body with
`CreateOrderZodSchema` (a `ZodError` is turned into the 400 "Validation
Error" response by the error middleware, before the service runs), then
call `OrderService.createOrder`. -/
def controllerCreateOrder (st : St) (oid userId : String) (items : List ReqItem) :
    Except String Order × St :=
  if zodValidateCreateOrder items then createOrder st oid userId items
  else (.error "Validation Error", st)

/-- Result of an HTTP request to `POST /orders` as the route sees it. -/
inductive HttpResult where
  | ok (order : Order)
  | forbidden
  | badRequest
  | err (msg : String)
  deriving Repr, DecidableEq

/-- Modelled from the spec: `authorize` of `src/middleware/authMiddleware.ts`
is imported by `src/app.ts` but its source is not part of the provided
files.  Per the spec and README ("Authorization middleware checks user
role"; 403 "Access denied."), `authorize(allowedRoles)` rejects the
request with a 403 Forbidden response, before the route handler runs,
whenever the authenticated actor's role is not in the allowed list.
`postOrders` is the `POST /orders` route of `src/app.ts`:
`authenticate, authorize([UserRole.CUSTOMER]), orderController.createOrder`,
for an already-authenticated actor. -/
def postOrders (st : St) (oid actorId actorRole : String) (items : List ReqItem) :
    HttpResult × St :=
  if actorRole ≠ "customer" then (.forbidden, st)
  else
    match controllerCreateOrder st oid actorId items with
    | (.ok o, st2) => (.ok o, st2)
    | (.error "Validation Error", st2) => (.badRequest, st2)
    | (.error e, st2) => (.err e, st2)

/-- Sum of `quantity * unitPrice` over order lines: the total formula of
spec §3 / §8. -/
def sumTotal (items : List OrderItem) : Int :=
  (items.map fun it => it.quantity * it.unitPrice).sum

/-- Quantity a given product is due from a list of order lines (used to
state the cancellation restore effect). -/
def qtyFor (pid : String) (items : List OrderItem) : Int :=
  ((items.filter fun it => it.productId = pid).map fun it => it.quantity).sum

/-- Stock well-formedness: every product in the collection has
non-negative stock (the `min: 0` schema constraint / spec invariant). -/
def goodStocks (st : St) : Bool :=
  st.products.all fun kv => 0 ≤ kv.2.stock

/-- Order well-formedness: every stored order's items carry quantity ≥ 1
(the `min: 1` schema constraint). -/
def goodOrders (st : St) : Bool :=
  st.orders.all fun kv => kv.2.items.all fun it => 1 ≤ it.quantity

/-- Well-formed database state. -/
def Wf (st : St) : Bool :=
  goodStocks st && goodOrders st

/-- One service invocation, with any parameters and (for cancellation)
any store failure schedule, successful or failed. -/
inductive Step : St → St → Prop where
  | create (st : St) (oid uid : String) (items : List ReqItem) :
      Step st (createOrder st oid uid items).2
  | pay (st : St) (oid uid role : String) :
      Step st (payOrder st oid uid role).2
  | cancel (fails : Nat → Bool) (st : St) (oid uid role : String) :
      Step st (cancelOrder fails st oid uid role).2

/-- States reachable by a sequence of createOrder / payOrder /
cancelOrder invocations. -/
inductive Reachable : St → St → Prop where
  | refl (st : St) : Reachable st st
  | tail {st1 st2 st3 : St} : Reachable st1 st2 → Step st2 st3 → Reachable st1 st3

/-- Sample catalog entry mirroring the repository's seed data shape. -/
def prodLaptop : Product := { name := "Laptop", price := 1000, stock := 10 }

/-- Second sample catalog entry. -/
def prodMouse : Product := { name := "Mouse", price := 2000, stock := 50 }

/-- Catalog-only sample state: two products, no orders. -/
def stW : St := { products := [("p1", prodLaptop), ("p2", prodMouse)], orders := [] }

/-- A two-line order for `stO`, as created from `stW`. -/
def ordW : Order :=
  { userId := "u1", items := [⟨"p1", 2, 1000⟩, ⟨"p2", 1, 2000⟩],
    total := 4000, status := .created }

/-- Post-creation sample state: `ordW` exists and stock was reserved. -/
def stO : St :=
  { products := [("p1", { prodLaptop with stock := 8 }),
                 ("p2", { prodMouse with stock := 49 })],
    orders := [("o1", ordW)] }

/-- `stO` with the order already paid. -/
def stP : St := { stO with orders := [("o1", { ordW with status := .paid })] }

/-- `stO` with the order already cancelled. -/
def stC : St := { stO with orders := [("o1", { ordW with status := .cancelled })] }

/-- Session state midway through reserving `p1` twice from `stW`: the
first conditional decrement of 6 already applied. -/
def stRace : St :=
  { products := [("p1", { prodLaptop with stock := 4 }), ("p2", prodMouse)], orders := [] }

/-- Failure schedule that makes the store throw on the second session
write (write index 1). -/
def failSecond : Nat → Bool := fun n => n == 1

theorem lookupA_setA {α : Type} (l : List (String × α)) (k k' : String) (v : α) :
    lookupA (setA l k v) k' =
      if k' = k then (lookupA l k).map (fun _ => v) else lookupA l k' := by
  induction l with
  | nil => simp [lookupA, setA]
  | cons kv rest ih =>
    simp only [setA, List.map_cons] at *
    by_cases hk : kv.1 = k
    · by_cases hk' : k' = k
      · subst hk'; simp [lookupA, hk]
      · have hk2 : ¬ k = k' := fun he => hk' he.symm
        simp [lookupA, hk, hk', hk2, ih]
    · by_cases hh : kv.1 = k'
      · have : ¬ k' = k := fun he => hk (hh.trans he)
        simp [lookupA, hk, hh, this]
      · simp [lookupA, hk, hh, ih]

theorem lookupA_mem {α : Type} {l : List (String × α)} {k : String} {v : α}
    (h : lookupA l k = some v) : (k, v) ∈ l := by
  induction l with
  | nil => simp [lookupA] at h
  | cons kv rest ih =>
    by_cases hk : kv.1 = k
    · simp only [lookupA, hk, if_pos] at h
      have : kv = (k, v) := by
        cases kv; cases h; cases hk; rfl
      simp [this]
    · simp only [lookupA, hk, if_neg, ite_false] at h
      exact List.mem_cons_of_mem _ (ih h)

theorem lookupA_of_all {α : Type} {l : List (String × α)} {p : String × α → Bool}
    (hall : l.all p = true) {k : String} {v : α} (h : lookupA l k = some v) :
    p (k, v) = true :=
  List.all_eq_true.mp hall _ (lookupA_mem h)

theorem all_setA {α : Type} {l : List (String × α)} {p : String × α → Bool}
    (hall : l.all p = true) {k : String} {v : α} (hv : p (k, v) = true) :
    (setA l k v).all p = true := by
  rw [setA, List.all_map]
  rw [List.all_eq_true] at hall ⊢
  intro kv hkv
  by_cases hk : kv.1 = k
  · simpa [Function.comp, hk] using hv
  · simpa [Function.comp, hk] using hall kv hkv

theorem condDecrement_some {st st' : St} {pid : String} {qty : Int}
    (h : condDecrement st pid qty = some st') :
    ∃ p, lookupA st.products pid = some p ∧ qty ≤ p.stock ∧
      st' = { st with products := setA st.products pid { p with stock := p.stock - qty } } := by
  unfold condDecrement at h
  cases hl : lookupA st.products pid with
  | none => rw [hl] at h; cases h
  | some p =>
    rw [hl] at h
    dsimp only at h
    by_cases hs : qty ≤ p.stock
    · rw [if_pos hs] at h
      exact ⟨p, rfl, hs, (Option.some_injective _ h).symm⟩
    · rw [if_neg hs] at h; cases h

theorem condDecrement_orders {st st' : St} {pid : String} {qty : Int}
    (h : condDecrement st pid qty = some st') : st'.orders = st.orders := by
  obtain ⟨p, _, _, hst⟩ := condDecrement_some h
  rw [hst]

theorem condDecrement_goodStocks {st st' : St} {pid : String} {qty : Int}
    (h : condDecrement st pid qty = some st') (hg : goodStocks st = true) :
    goodStocks st' = true := by
  obtain ⟨p, _, hs, hst⟩ := condDecrement_some h
  rw [hst]
  exact all_setA hg (by simpa using Int.sub_nonneg.mpr hs)

theorem incrementStock_orders (st : St) (a : String) (q : Int) :
    (incrementStock st a q).orders = st.orders := by
  unfold incrementStock
  cases lookupA st.products a <;> rfl

theorem lookupA_incrementStock (st : St) (a : String) (q : Int) (pid : String) :
    lookupA (incrementStock st a q).products pid =
      if pid = a then (lookupA st.products a).map (fun p => { p with stock := p.stock + q })
      else lookupA st.products pid := by
  unfold incrementStock
  cases hl : lookupA st.products a with
  | none =>
    by_cases hp : pid = a
    · subst hp; simp [hl]
    · simp [hp]
  | some p => simp [lookupA_setA, hl]

theorem incrementStock_goodStocks {st : St} {a : String} {q : Int}
    (hg : goodStocks st = true) (hq : 0 ≤ q) : goodStocks (incrementStock st a q) = true := by
  unfold incrementStock
  cases hl : lookupA st.products a with
  | none => exact hg
  | some p =>
    have hp : (0 ≤ p.stock) = true := by simpa using lookupA_of_all hg hl
    exact all_setA hg (by simp at hp ⊢; omega)

theorem orderSetStatus_some {st : St} {oid : String} {s : OrderStatus} {o2 : Order} {st2 : St}
    (h : orderSetStatus st oid s = some (o2, st2)) :
    ∃ o, lookupA st.orders oid = some o ∧ o2 = { o with status := s } ∧
      st2 = { st with orders := setA st.orders oid { o with status := s } } := by
  unfold orderSetStatus at h
  cases hl : lookupA st.orders oid with
  | none => rw [hl] at h; cases h
  | some o =>
    rw [hl] at h
    simp only [Option.some.injEq, Prod.mk.injEq] at h
    exact ⟨o, rfl, h.1.symm, h.2.symm⟩

theorem orderSetStatus_lookup {st : St} {oid : String} {s : OrderStatus} {o2 : Order} {st2 : St}
    (h : orderSetStatus st oid s = some (o2, st2)) :
    lookupA st2.orders oid = some o2 := by
  obtain ⟨o, hl, ho, hst⟩ := orderSetStatus_some h
  rw [hst, ho]
  simp [lookupA_setA, hl]

theorem orderSetStatus_goodOrders {st : St} {oid : String} {s : OrderStatus} {o2 : Order}
    {st2 : St} (h : orderSetStatus st oid s = some (o2, st2))
    (hg : goodOrders st = true) : goodOrders st2 = true := by
  obtain ⟨o, hl, _, hst⟩ := orderSetStatus_some h
  rw [hst]
  have hold : (o.items.all fun it => 1 ≤ it.quantity) = true := by
    simpa [goodOrders] using lookupA_of_all hg hl
  exact all_setA hg (by simpa using hold)

theorem orderCreate_ok {st : St} {oid : String} {o : Order} {st2 : St}
    (h : orderCreate st oid o = .ok st2) :
    lookupA st.orders oid = none ∧ orderDocValid o = true ∧
      st2 = { st with orders := (oid, o) :: st.orders } := by
  unfold orderCreate at h
  cases hl : lookupA st.orders oid with
  | some _ => rw [hl] at h; cases h
  | none =>
    rw [hl] at h
    dsimp only at h
    by_cases hv : orderDocValid o = true
    · rw [if_pos hv] at h
      injection h with h2
      exact ⟨rfl, hv, h2.symm⟩
    · rw [if_neg hv] at h; cases h

theorem reserveLoop_ok {base : St} {items : List ReqItem} :
    ∀ {cur : St} {lines : List OrderItem} {total : Int} {final : St},
      reserveLoop base cur items = .ok (lines, total, final) →
      final.orders = cur.orders ∧
      total = sumTotal lines ∧
      (goodStocks cur = true → goodStocks final = true) ∧
      (∀ it ∈ lines, ∃ p, lookupA base.products it.productId = some p ∧ it.unitPrice = p.price) := by
  induction items with
  | nil =>
    intro cur lines total final h
    simp only [reserveLoop, Except.ok.injEq, Prod.mk.injEq] at h
    obtain ⟨h1, h2, h3⟩ := h
    subst h1; subst h2; subst h3
    simp [sumTotal]
  | cons item rest ih =>
    intro cur lines total final h
    simp only [reserveLoop] at h
    cases hl : lookupA base.products item.productId with
    | none => rw [hl] at h; cases h
    | some product =>
      rw [hl] at h
      dsimp only at h
      by_cases hs : product.stock < item.quantity
      · rw [if_pos hs] at h; cases h
      · rw [if_neg hs] at h
        cases hd : condDecrement cur item.productId item.quantity with
        | none => rw [hd] at h; cases h
        | some cur2 =>
          rw [hd] at h
          dsimp only at h
          cases hr : reserveLoop base cur2 rest with
          | error e => rw [hr] at h; cases h
          | ok res =>
            obtain ⟨lines2, total2, final2⟩ := res
            rw [hr] at h
            simp only [Except.ok.injEq, Prod.mk.injEq] at h
            obtain ⟨h1, h2, h3⟩ := h
            subst h1; subst h2; subst h3
            obtain ⟨ho, ht, hg, hp⟩ := ih hr
            refine ⟨ho.trans (condDecrement_orders hd), ?_, ?_, ?_⟩
            · simp [sumTotal] at ht ⊢
              rw [ht]; ring
            · intro hcur
              exact hg (condDecrement_goodStocks hd hcur)
            · intro it hit
              rcases List.mem_cons.mp hit with hit | hit
              · exact ⟨product, by simp [hit, hl], by simp [hit]⟩
              · exact hp it hit

theorem createOrder_error {st : St} {oid uid : String} {items : List ReqItem}
    {e : String} {st2 : St} (h : createOrder st oid uid items = (.error e, st2)) :
    st2 = st := by
  unfold createOrder at h
  cases hr : reserveLoop st st items with
  | error e2 => rw [hr] at h; exact (Prod.mk.injEq _ _ _ _ ▸ h).2.symm ▸ rfl
  | ok res =>
    obtain ⟨lines, total, cur⟩ := res
    rw [hr] at h
    dsimp only at h
    cases hc : orderCreate cur oid
        { userId := uid, items := lines, total := total, status := .created } with
    | error e2 => rw [hc] at h; simp only [Prod.mk.injEq] at h; exact h.2.symm ▸ rfl
    | ok cur2 => rw [hc] at h; simp only [Prod.mk.injEq] at h; cases h.1

theorem createOrder_ok {st : St} {oid uid : String} {items : List ReqItem}
    {order : Order} {st2 : St} (h : createOrder st oid uid items = (.ok order, st2)) :
    ∃ lines total cur,
      reserveLoop st st items = .ok (lines, total, cur) ∧
      order = { userId := uid, items := lines, total := total, status := .created } ∧
      lookupA cur.orders oid = none ∧ orderDocValid order = true ∧
      st2 = { cur with orders := (oid, order) :: cur.orders } := by
  unfold createOrder at h
  cases hr : reserveLoop st st items with
  | error e2 => rw [hr] at h; simp only [Prod.mk.injEq] at h; cases h.1
  | ok res =>
    obtain ⟨lines, total, cur⟩ := res
    rw [hr] at h
    dsimp only at h
    cases hc : orderCreate cur oid
        { userId := uid, items := lines, total := total, status := .created } with
    | error e2 => rw [hc] at h; simp only [Prod.mk.injEq] at h; cases h.1
    | ok cur2 =>
      rw [hc] at h
      simp only [Prod.mk.injEq, Except.ok.injEq] at h
      obtain ⟨h1, h2⟩ := h
      subst h1
      obtain ⟨hn, hv, hcur2⟩ := orderCreate_ok hc
      exact ⟨lines, total, cur, rfl, rfl, hn, hv, h2 ▸ hcur2⟩

theorem qtyFor_cons (pid : String) (it : OrderItem) (rest : List OrderItem) :
    qtyFor pid (it :: rest) =
      (if it.productId = pid then it.quantity else 0) + qtyFor pid rest := by
  by_cases h : it.productId = pid <;> simp [qtyFor, h]

theorem restoreLoop_ok {fails : Nat → Bool} {items : List OrderItem} :
    ∀ {n : Nat} {cur cur2 : St} {n2 : Nat},
      restoreLoop fails n cur items = .ok (cur2, n2) →
      cur2.orders = cur.orders ∧
      ((items.all fun it => 1 ≤ it.quantity) = true → goodStocks cur = true →
        goodStocks cur2 = true) ∧
      (∀ pid p, lookupA cur.products pid = some p →
        lookupA cur2.products pid = some { p with stock := p.stock + qtyFor pid items }) := by
  induction items with
  | nil =>
    intro n cur cur2 n2 h
    simp only [restoreLoop, Except.ok.injEq, Prod.mk.injEq] at h
    obtain ⟨h1, _⟩ := h
    subst h1
    refine ⟨rfl, fun _ hg => hg, ?_⟩
    intro pid p hp
    simpa [qtyFor] using hp
  | cons it rest ih =>
    intro n cur cur2 n2 h
    simp only [restoreLoop] at h
    by_cases hf : fails n = true
    · rw [if_pos hf] at h; cases h
    · rw [if_neg hf] at h
      obtain ⟨ho, hg, hp⟩ := ih h
      refine ⟨ho.trans (incrementStock_orders cur it.productId it.quantity), ?_, ?_⟩
      · intro hall hcur
        simp only [List.all_cons, Bool.and_eq_true] at hall
        have h1 : (1 : Int) ≤ it.quantity := by simpa using hall.1
        exact hg hall.2 (incrementStock_goodStocks hcur (by omega))
      · intro pid p hlp
        have hstep := lookupA_incrementStock cur it.productId it.quantity pid
        by_cases hpe : pid = it.productId
        · rw [if_pos hpe] at hstep
          rw [hpe] at hlp
          rw [hlp] at hstep
          have := hp pid _ hstep
          rw [this, qtyFor_cons]
          have harith : p.stock + it.quantity + qtyFor pid rest =
              p.stock + ((if it.productId = pid then it.quantity else 0) + qtyFor pid rest) := by
            rw [if_pos hpe.symm]; ring
          simp only [Option.map_some]
          exact congrArg some (congrArg _ harith)
        · rw [if_neg hpe] at hstep
          rw [hlp] at hstep
          have := hp pid p hstep
          rw [this, qtyFor_cons, if_neg (fun he => hpe he.symm)]
          norm_num

theorem restoreLoop_neverFail (items : List OrderItem) :
    ∀ (n : Nat) (cur : St), ∃ cur2 n2, restoreLoop neverFail n cur items = .ok (cur2, n2) := by
  induction items with
  | nil => exact fun n cur => ⟨cur, n, rfl⟩
  | cons it rest ih =>
    intro n cur
    simp only [restoreLoop, neverFail, Bool.false_eq_true, if_false]
    exact ih (n + 1) (incrementStock cur it.productId it.quantity)

theorem cancelOrder_error {fails : Nat → Bool} {st : St} {oid uid role : String}
    {e : String} {st2 : St} (h : cancelOrder fails st oid uid role = (.error e, st2)) :
    st2 = st := by
  unfold cancelOrder at h
  cases hl : lookupA st.orders oid with
  | none =>
    rw [hl] at h
    simp only [Prod.mk.injEq] at h
    exact h.2.symm
  | some order =>
    rw [hl] at h
    dsimp only at h
    by_cases h1 : role ≠ "admin" ∧ order.userId ≠ uid
    · rw [if_pos h1] at h
      simp only [Prod.mk.injEq] at h
      exact h.2.symm
    · rw [if_neg h1] at h
      by_cases h2 : order.status = .cancelled
      · rw [if_pos h2] at h
        simp only [Prod.mk.injEq] at h
        cases h.1
      · rw [if_neg h2] at h
        by_cases h3 : role ≠ "admin" ∧ order.status = .paid
        · rw [if_pos h3] at h
          simp only [Prod.mk.injEq] at h
          exact h.2.symm
        · rw [if_neg h3] at h
          cases hr : restoreLoop fails 0 st order.items with
          | error e2 =>
            rw [hr] at h
            simp only [Prod.mk.injEq] at h
            exact h.2.symm
          | ok res =>
            obtain ⟨cur, n⟩ := res
            rw [hr] at h
            dsimp only at h
            by_cases hf : fails n = true
            · rw [if_pos hf] at h
              simp only [Prod.mk.injEq] at h
              exact h.2.symm
            · rw [if_neg hf] at h
              cases hu : orderSetStatus cur oid .cancelled with
              | none =>
                rw [hu] at h
                simp only [Prod.mk.injEq] at h
                exact h.2.symm
              | some res2 =>
                obtain ⟨o2, cur2⟩ := res2
                rw [hu] at h
                simp only [Prod.mk.injEq] at h
                cases h.1

theorem cancelOrder_ok {fails : Nat → Bool} {st : St} {oid uid role : String}
    {o2 : Order} {st2 : St} (h : cancelOrder fails st oid uid role = (.ok o2, st2)) :
    ∃ order, lookupA st.orders oid = some order ∧ o2.userId = order.userId ∧
      o2.items = order.items ∧ o2.status = .cancelled ∧
      lookupA st2.orders oid = some o2 ∧
      (st2 = st ∨ ∃ cur n, restoreLoop fails 0 st order.items = .ok (cur, n) ∧
        orderSetStatus cur oid .cancelled = some (o2, st2)) := by
  unfold cancelOrder at h
  cases hl : lookupA st.orders oid with
  | none =>
    rw [hl] at h
    simp only [Prod.mk.injEq] at h
    cases h.1
  | some order =>
    rw [hl] at h
    dsimp only at h
    by_cases h1 : role ≠ "admin" ∧ order.userId ≠ uid
    · rw [if_pos h1] at h
      simp only [Prod.mk.injEq] at h
      cases h.1
    · rw [if_neg h1] at h
      by_cases h2 : order.status = .cancelled
      · rw [if_pos h2] at h
        simp only [Prod.mk.injEq, Except.ok.injEq] at h
        obtain ⟨ho, hst⟩ := h
        subst ho; subst hst
        exact ⟨order, rfl, rfl, rfl, h2, hl, Or.inl rfl⟩
      · rw [if_neg h2] at h
        by_cases h3 : role ≠ "admin" ∧ order.status = .paid
        · rw [if_pos h3] at h
          simp only [Prod.mk.injEq] at h
          cases h.1
        · rw [if_neg h3] at h
          cases hr : restoreLoop fails 0 st order.items with
          | error e2 =>
            rw [hr] at h
            simp only [Prod.mk.injEq] at h
            cases h.1
          | ok res =>
            obtain ⟨cur, n⟩ := res
            rw [hr] at h
            dsimp only at h
            by_cases hf : fails n = true
            · rw [if_pos hf] at h
              simp only [Prod.mk.injEq] at h
              cases h.1
            · rw [if_neg hf] at h
              cases hu : orderSetStatus cur oid .cancelled with
              | none =>
                rw [hu] at h
                simp only [Prod.mk.injEq] at h
                cases h.1
              | some res2 =>
                obtain ⟨o3, cur2⟩ := res2
                rw [hu] at h
                simp only [Prod.mk.injEq, Except.ok.injEq] at h
                obtain ⟨ho, hst⟩ := h
                subst ho; subst hst
                obtain ⟨o, hlo, ho3, _⟩ := orderSetStatus_some hu
                have hco : cur.orders = st.orders := (restoreLoop_ok hr).1
                rw [hco, hl] at hlo
                cases hlo
                exact ⟨order, rfl, by rw [ho3], by rw [ho3], by rw [ho3],
                       orderSetStatus_lookup hu, Or.inr ⟨cur, n, hr, hu⟩⟩

theorem goodStocks_lookup {st : St} (hg : goodStocks st = true) {pid : String} {p : Product}
    (h : lookupA st.products pid = some p) : 0 ≤ p.stock := by
  simpa using lookupA_of_all hg h

theorem goodOrders_lookup {st : St} (hg : goodOrders st = true) {oid : String} {o : Order}
    (h : lookupA st.orders oid = some o) :
    (o.items.all fun it => 1 ≤ it.quantity) = true := by
  simpa using lookupA_of_all hg h

theorem wf_split {st : St} (hwf : Wf st = true) :
    goodStocks st = true ∧ goodOrders st = true := by
  simpa [Wf, Bool.and_eq_true] using hwf

theorem goodOrders_of_orders_eq {st st2 : St} (h : st2.orders = st.orders)
    (hg : goodOrders st = true) : goodOrders st2 = true := by
  unfold goodOrders at *
  rw [h]
  exact hg

theorem goodStocks_of_products_eq {st st2 : St} (h : st2.products = st.products)
    (hg : goodStocks st = true) : goodStocks st2 = true := by
  unfold goodStocks at *
  rw [h]
  exact hg

theorem cancelOrder_admin_effect {st : St} {oid : String} {order : Order} (uid : String)
    (hl : lookupA st.orders oid = some order) (hs : order.status ≠ .cancelled) :
    ∃ cur : St, cancelOrder neverFail st oid uid "admin" =
        (.ok { order with status := .cancelled },
         { cur with orders := setA cur.orders oid { order with status := .cancelled } }) ∧
      cur.orders = st.orders ∧
      (∀ pid p, lookupA st.products pid = some p →
        lookupA cur.products pid = some { p with stock := p.stock + qtyFor pid order.items }) := by
  obtain ⟨cur, n2, heq⟩ := restoreLoop_neverFail order.items 0 st
  obtain ⟨hco, _, hpr⟩ := restoreLoop_ok heq
  have hcur : lookupA cur.orders oid = some order := by rw [hco]; exact hl
  have hset : orderSetStatus cur oid OrderStatus.cancelled =
      some ({ order with status := .cancelled },
            { cur with orders := setA cur.orders oid { order with status := .cancelled } }) := by
    unfold orderSetStatus
    rw [hcur]
  refine ⟨cur, ?_, hco, hpr⟩
  unfold cancelOrder
  rw [hl]
  dsimp only
  rw [if_neg (by simp), if_neg hs, if_neg (by simp), heq]
  dsimp only
  rw [if_neg (by simp [neverFail]), hset]

theorem createOrder_wf {st : St} (hwf : Wf st = true) (oid uid : String)
    (items : List ReqItem) : Wf (createOrder st oid uid items).2 = true := by
  obtain ⟨hg, hgo⟩ := wf_split hwf
  cases hres : createOrder st oid uid items with
  | mk r st2 =>
    show Wf st2 = true
    cases r with
    | error e => rw [createOrder_error hres]; exact hwf
    | ok order =>
      obtain ⟨lines, total, cur, hrl, hord, hn, hv, hst2⟩ := createOrder_ok hres
      obtain ⟨hoe, _, hsg, _⟩ := reserveLoop_ok hrl
      subst hst2
      have hgcur : goodStocks cur = true := hsg hg
      have hvq : (order.items.all fun it => 1 ≤ it.quantity) = true := by
        simp only [orderDocValid, Bool.and_eq_true, List.all_eq_true] at hv
        rw [List.all_eq_true]
        intro it hit
        exact by simpa using (hv.1 it hit).1
      simp only [Wf, Bool.and_eq_true]
      constructor
      · exact hgcur
      · simp only [goodOrders, List.all_cons, Bool.and_eq_true]
        constructor
        · exact hvq
        · rw [hoe]
          exact hgo

theorem payOrder_wf {st : St} (hwf : Wf st = true) (oid uid role : String) :
    Wf (payOrder st oid uid role).2 = true := by
  obtain ⟨hg, hgo⟩ := wf_split hwf
  unfold payOrder
  cases hl : lookupA st.orders oid with
  | none => exact hwf
  | some order =>
    dsimp only
    split_ifs with h1 h2 h3
    · exact hwf
    · exact hwf
    · exact hwf
    · cases hu : orderSetStatus st oid .paid with
      | none => exact hwf
      | some res =>
        obtain ⟨o2, st2⟩ := res
        dsimp only
        obtain ⟨o, hlo, ho2, hst2⟩ := orderSetStatus_some hu
        subst hst2
        simp only [Wf, Bool.and_eq_true]
        exact ⟨hg, orderSetStatus_goodOrders hu hgo⟩

theorem cancelOrder_wf {fails : Nat → Bool} {st : St} (hwf : Wf st = true)
    (oid uid role : String) : Wf (cancelOrder fails st oid uid role).2 = true := by
  obtain ⟨hg, hgo⟩ := wf_split hwf
  cases hres : cancelOrder fails st oid uid role with
  | mk r st2 =>
    show Wf st2 = true
    cases r with
    | error e => rw [cancelOrder_error hres]; exact hwf
    | ok o2 =>
      obtain ⟨order, hl, _, _, _, _, hcase⟩ := cancelOrder_ok hres
      rcases hcase with hcase | ⟨cur, n, hrl, hu⟩
      · rw [hcase]; exact hwf
      · obtain ⟨hco, hsg, _⟩ := restoreLoop_ok hrl
        have hq : (order.items.all fun it => 1 ≤ it.quantity) = true :=
          goodOrders_lookup hgo hl
        have hgcur : goodStocks cur = true := hsg hq hg
        have hgocur : goodOrders cur = true := goodOrders_of_orders_eq hco hgo
        obtain ⟨o, hlo, ho2, hst2⟩ := orderSetStatus_some hu
        have hpp : st2.products = cur.products := by rw [hst2]
        simp only [Wf, Bool.and_eq_true]
        exact ⟨goodStocks_of_products_eq hpp hgcur, orderSetStatus_goodOrders hu hgocur⟩

theorem wf_step {st st2 : St} (hwf : Wf st = true) (h : Step st st2) : Wf st2 = true := by
  cases h with
  | create st oid uid items => exact createOrder_wf hwf oid uid items
  | pay st oid uid role => exact payOrder_wf hwf oid uid role
  | cancel fails st oid uid role => exact cancelOrder_wf hwf oid uid role

theorem wf_reachable {st st2 : St} (hwf : Wf st = true) (h : Reachable st st2) :
    Wf st2 = true := by
  induction h with
  | refl => exact hwf
  | tail _ hstep ih => exact wf_step ih hstep

/-- C1: For every product and after every sequence of createOrder, payOrder
and cancelOrder invocations (successful or failed, any parameters, any
store failure schedule), starting from a well-formed database state,
every product's stock is ≥ 0: stock is only decremented by the
conditional write requiring `stock ≥ quantity` at the moment of the
write, and only incremented by the cancellation restore path. -/
theorem stock_nonneg_invariant (init st : St) (hwf : Wf init = true)
    (hr : Reachable init st) :
    ∀ pid p, lookupA st.products pid = some p → 0 ≤ p.stock := by
  intro pid p h
  exact goodStocks_lookup (wf_split (wf_reachable hwf hr)).1 h

theorem stock_nonneg_invariant_witness :
    0 ≤ (Product.mk "Laptop" 1000 8).stock :=
  stock_nonneg_invariant stW (createOrder stW "o2" "u1" [⟨"p1", 2⟩]).2 (by decide)
    (Reachable.tail (Reachable.refl stW) (Step.create stW "o2" "u1" [⟨"p1", 2⟩]))
    "p1" (Product.mk "Laptop" 1000 8) (by decide)

/-- C2: If createOrder fails at any step (product not found, insufficient
stock at the pre-check, conditional decrement rejected at write time, or
the order write itself), then after the call the state is exactly the
state before the call — every per-item decrement already applied in the
same call is rolled back — and no Order record exists for the request's
fresh id. -/
theorem createOrder_failure_atomic (st : St) (oid uid : String) (items : List ReqItem)
    (e : String) (st2 : St) (h : createOrder st oid uid items = (.error e, st2)) :
    st2 = st ∧ (lookupA st.orders oid = none → lookupA st2.orders oid = none) := by
  have he := createOrder_error h
  exact ⟨he, fun hn => he ▸ hn⟩

theorem createOrder_failure_atomic_witness :
    (createOrder stW "o1" "u1" [⟨"p9", 1⟩]).2 = stW ∧
      (lookupA stW.orders "o1" = none →
        lookupA (createOrder stW "o1" "u1" [⟨"p9", 1⟩]).2.orders "o1" = none) :=
  createOrder_failure_atomic stW "o1" "u1" [⟨"p9", 1⟩] "Product p9 not found"
    (createOrder stW "o1" "u1" [⟨"p9", 1⟩]).2 (by decide)

/-- C3: For every order successfully returned by createOrder, `total`
equals the sum over its items of `quantity * unitPrice`, each item's
`unitPrice` equals the product's price as read (from the committed
state) at reservation time, and a later product price change never
touches any stored order record. -/
theorem order_total_and_price_snapshot (st : St) (oid uid : String)
    (items : List ReqItem) (order : Order) (st2 : St)
    (h : createOrder st oid uid items = (.ok order, st2)) :
    order.total = sumTotal order.items ∧
    (∀ it ∈ order.items, ∃ p, lookupA st.products it.productId = some p ∧
      it.unitPrice = p.price) ∧
    (∀ pid newPrice, (updateProductPrice st2 pid newPrice).orders = st2.orders) := by
  obtain ⟨lines, total, cur, hrl, hord, _, _, _⟩ := createOrder_ok h
  obtain ⟨_, ht, _, hp⟩ := reserveLoop_ok hrl
  refine ⟨?_, ?_, ?_⟩
  · rw [hord]; exact ht
  · rw [hord]; exact hp
  · intro pid newPrice
    unfold updateProductPrice
    cases lookupA st2.products pid <;> rfl

theorem order_total_and_price_snapshot_witness :
    ordW.total = sumTotal ordW.items ∧
    (∀ it ∈ ordW.items, ∃ p, lookupA stW.products it.productId = some p ∧
      it.unitPrice = p.price) ∧
    (∀ pid newPrice,
      (updateProductPrice (createOrder stW "o1" "u1" [⟨"p1", 2⟩, ⟨"p2", 1⟩]).2
        pid newPrice).orders =
      (createOrder stW "o1" "u1" [⟨"p1", 2⟩, ⟨"p2", 1⟩]).2.orders) :=
  order_total_and_price_snapshot stW "o1" "u1" [⟨"p1", 2⟩, ⟨"p2", 1⟩] ordW
    (createOrder stW "o1" "u1" [⟨"p1", 2⟩, ⟨"p2", 1⟩]).2 (by decide)

/-- C4: For an authorized actor, repeating payOrder on an order already
PAID, or cancelOrder on an order already CANCELLED, performs no write at
all (the returned state is the input state) and returns the same
observable order; and repeating cancelOrder right after a successful
cancelOrder changes nothing — stock is restored exactly once. -/
theorem pay_cancel_idempotent (st : St) (oid uid role : String) (order : Order)
    (hl : lookupA st.orders oid = some order)
    (hauth : role = "admin" ∨ order.userId = uid) :
    (order.status = .paid → payOrder st oid uid role = (.ok order, st)) ∧
    (order.status = .cancelled →
      cancelOrder neverFail st oid uid role = (.ok order, st)) ∧
    (∀ o2 st2, cancelOrder neverFail st oid uid role = (.ok o2, st2) →
      cancelOrder neverFail st2 oid uid role = (.ok o2, st2)) := by
  have hguard : ∀ o : Order, o.userId = order.userId →
      ¬ (role ≠ "admin" ∧ o.userId ≠ uid) := by
    intro o ho hcon
    rcases hauth with ha | ha
    · exact hcon.1 ha
    · exact hcon.2 (ho.trans ha)
  refine ⟨?_, ?_, ?_⟩
  · intro hpaid
    unfold payOrder
    rw [hl]
    dsimp only
    rw [if_neg (hguard order rfl), if_pos hpaid]
  · intro hcanc
    unfold cancelOrder
    rw [hl]
    dsimp only
    rw [if_neg (hguard order rfl), if_pos hcanc]
  · intro o2 st2 h
    obtain ⟨order2, hl2, hu2, _, hstat2, hlook2, _⟩ := cancelOrder_ok h
    have : order2 = order := by rw [hl] at hl2; exact (Option.some_injective _ hl2.symm)
    subst this
    unfold cancelOrder
    rw [hlook2]
    dsimp only
    rw [if_neg (hguard o2 hu2), if_pos hstat2]

theorem pay_cancel_idempotent_witness :
    payOrder stP "o1" "u1" "customer" = (.ok { ordW with status := .paid }, stP) ∧
    cancelOrder neverFail stC "o1" "u1" "customer" =
      (.ok { ordW with status := .cancelled }, stC) :=
  ⟨(pay_cancel_idempotent stP "o1" "u1" "customer" { ordW with status := .paid }
      (by decide) (Or.inr (by decide))).1 (by decide),
   (pay_cancel_idempotent stC "o1" "u1" "customer" { ordW with status := .cancelled }
      (by decide) (Or.inr (by decide))).2.1 (by decide)⟩

/-- C5: If any step of cancelOrder's stock restore or its status write
fails (any store failure schedule, e.g. the restore write for the second
item of a two-item order), the whole transaction aborts: the returned
state is exactly the state before the call, so the order's status is
unchanged and no item's stock restoration persists. -/
theorem cancelOrder_failure_atomic (fails : Nat → Bool) (st : St) (oid uid role : String)
    (e : String) (st2 : St) (h : cancelOrder fails st oid uid role = (.error e, st2)) :
    st2 = st ∧
    (∀ order, lookupA st.orders oid = some order → lookupA st2.orders oid = some order) ∧
    (∀ pid, lookupA st2.products pid = lookupA st.products pid) := by
  have he := cancelOrder_error h
  exact ⟨he, fun order ho => he ▸ ho, fun pid => by rw [he]⟩

theorem cancelOrder_failure_atomic_witness :
    (cancelOrder failSecond stO "o1" "u1" "customer").2 = stO ∧
    (∀ order, lookupA stO.orders "o1" = some order →
      lookupA (cancelOrder failSecond stO "o1" "u1" "customer").2.orders "o1" = some order) ∧
    (∀ pid, lookupA (cancelOrder failSecond stO "o1" "u1" "customer").2.products pid =
      lookupA stO.products pid) :=
  cancelOrder_failure_atomic failSecond stO "o1" "u1" "customer" "Database error"
    (cancelOrder failSecond stO "o1" "u1" "customer").2 (by decide)

/-- C6: Within one createOrder call items are processed in input order,
and for the item at hand (with arbitrary session state `cur` reached by
the earlier items): a missing product fails with the not-found error, a
pre-check shortfall fails with the insufficient-stock error, a rejected
conditional decrement fails with the race-detected error; the error
never depends on the remaining items (`rest` is arbitrary and absent
from the result), and any loop error aborts the whole call with the
state unchanged. -/
theorem reserve_first_failure_aborts (base cur : St) (item : ReqItem)
    (rest : List ReqItem) (st : St) (oid uid : String) :
    (lookupA base.products item.productId = none →
      reserveLoop base cur (item :: rest) =
        .error ("Product " ++ item.productId ++ " not found")) ∧
    (∀ p, lookupA base.products item.productId = some p → p.stock < item.quantity →
      reserveLoop base cur (item :: rest) =
        .error ("Insufficient stock for product " ++ p.name)) ∧
    (∀ p, lookupA base.products item.productId = some p → ¬ p.stock < item.quantity →
      condDecrement cur item.productId item.quantity = none →
      reserveLoop base cur (item :: rest) =
        .error ("Insufficient stock for product " ++ p.name ++ " (race condition)")) ∧
    (∀ e items, reserveLoop st st items = .error e →
      createOrder st oid uid items = (.error e, st)) := by
  refine ⟨?_, ?_, ?_, ?_⟩
  · intro hn
    simp only [reserveLoop, hn]
  · intro p hp hs
    simp only [reserveLoop, hp, if_pos hs]
  · intro p hp hs hd
    simp only [reserveLoop, hp, if_neg hs, hd]
  · intro e items he
    simp only [createOrder, he]

theorem reserve_first_failure_aborts_witness :
    reserveLoop stW stW [⟨"p9", 1⟩] = .error "Product p9 not found" ∧
    reserveLoop stW stW [⟨"p1", 11⟩, ⟨"p2", 1⟩] =
      .error "Insufficient stock for product Laptop" ∧
    reserveLoop stW stRace [⟨"p1", 6⟩, ⟨"p2", 100⟩] =
      .error "Insufficient stock for product Laptop (race condition)" ∧
    createOrder stW "o1" "u1" [⟨"p9", 1⟩, ⟨"p1", 2⟩] =
      (.error "Product p9 not found", stW) :=
  ⟨(reserve_first_failure_aborts stW stW ⟨"p9", 1⟩ [] stW "o1" "u1").1 (by decide),
   (reserve_first_failure_aborts stW stW ⟨"p1", 11⟩ [⟨"p2", 1⟩] stW "o1" "u1").2.1
     prodLaptop (by decide) (by decide),
   (reserve_first_failure_aborts stW stRace ⟨"p1", 6⟩ [⟨"p2", 100⟩] stW "o1" "u1").2.2.1
     prodLaptop (by decide) (by decide) (by decide),
   (reserve_first_failure_aborts stW stW ⟨"p9", 1⟩ [] stW "o1" "u1").2.2.2
     "Product p9 not found" [⟨"p9", 1⟩, ⟨"p1", 2⟩] (by decide)⟩

/-- C7: For payOrder and cancelOrder, an actor whose role is not "admin"
and who does not own the order receives the ownership failure with the
state unchanged (for cancelOrder under every store failure schedule),
while an actor with the "admin" role may pay or cancel any user's
CREATED order. -/
theorem ownership_authorization (st : St) (oid uid role : String) (order : Order)
    (hl : lookupA st.orders oid = some order) :
    (role ≠ "admin" → order.userId ≠ uid →
      payOrder st oid uid role = (.error "You can only pay for your own orders", st) ∧
      ∀ fails, cancelOrder fails st oid uid role =
        (.error "You can only cancel your own orders", st)) ∧
    (order.status = .created →
      (payOrder st oid uid "admin").1 = .ok { order with status := .paid } ∧
      (cancelOrder neverFail st oid uid "admin").1 =
        .ok { order with status := .cancelled }) := by
  constructor
  · intro hr hu
    constructor
    · unfold payOrder
      rw [hl]
      dsimp only
      rw [if_pos ⟨hr, hu⟩]
    · intro fails
      unfold cancelOrder
      rw [hl]
      dsimp only
      rw [if_pos ⟨hr, hu⟩]
  · intro hc
    constructor
    · have hset : orderSetStatus st oid OrderStatus.paid =
          some ({ order with status := .paid },
                { st with orders := setA st.orders oid { order with status := .paid } }) := by
        unfold orderSetStatus
        rw [hl]
      unfold payOrder
      rw [hl]
      dsimp only
      rw [if_neg (by simp), if_neg (by simp [hc]), if_neg (by simp [hc]), hset]
    · obtain ⟨cur, hceq, _, _⟩ :=
        cancelOrder_admin_effect uid hl (by simp [hc])
      rw [hceq]

theorem ownership_authorization_witness :
    (payOrder stO "o1" "u2" "customer" =
      (.error "You can only pay for your own orders", stO) ∧
     ∀ fails, cancelOrder fails stO "o1" "u2" "customer" =
      (.error "You can only cancel your own orders", stO)) ∧
    ((payOrder stO "o1" "u9" "admin").1 = .ok { ordW with status := .paid } ∧
     (cancelOrder neverFail stO "o1" "u9" "admin").1 =
       .ok { ordW with status := .cancelled }) :=
  ⟨(ownership_authorization stO "o1" "u2" "customer" ordW (by decide)).1
     (by decide) (by decide),
   (ownership_authorization stO "o1" "u9" "admin" ordW (by decide)).2 (by decide)⟩

/-- C8: payOrder on a CANCELLED order fails with the invalid-transition
error; cancelOrder on a PAID order by a non-admin owner fails with the
forbidden error; and an admin's cancelOrder on a PAID order succeeds,
setting status CANCELLED in the ledger and restoring every product's
stock by the quantity due from the order's items. -/
theorem lifecycle_transition_guards (st : St) (oid uid role : String) (order : Order)
    (hl : lookupA st.orders oid = some order) :
    (order.status = .cancelled → (role = "admin" ∨ order.userId = uid) →
      payOrder st oid uid role = (.error "Order is cancelled", st)) ∧
    (order.status = .paid → role ≠ "admin" → order.userId = uid →
      cancelOrder neverFail st oid uid role =
        (.error "Cannot cancel paid orders. Please contact support for refunds.", st)) ∧
    (order.status = .paid →
      (cancelOrder neverFail st oid uid "admin").1 =
        .ok { order with status := .cancelled } ∧
      lookupA (cancelOrder neverFail st oid uid "admin").2.orders oid =
        some { order with status := .cancelled } ∧
      ∀ pid p, lookupA st.products pid = some p →
        lookupA (cancelOrder neverFail st oid uid "admin").2.products pid =
          some { p with stock := p.stock + qtyFor pid order.items }) := by
  refine ⟨?_, ?_, ?_⟩
  · intro hc hauth
    have hng : ¬ (role ≠ "admin" ∧ order.userId ≠ uid) := by
      rcases hauth with ha | ha
      · exact fun hcon => hcon.1 ha
      · exact fun hcon => hcon.2 ha
    unfold payOrder
    rw [hl]
    dsimp only
    rw [if_neg hng, if_neg (by simp [hc]), if_pos hc]
  · intro hp hr hu
    unfold cancelOrder
    rw [hl]
    dsimp only
    rw [if_neg (by simp [hu]), if_neg (by simp [hp]), if_pos ⟨hr, hp⟩]
  · intro hp
    obtain ⟨cur, hceq, hco, hpr⟩ :=
      cancelOrder_admin_effect uid hl (by simp [hp])
    rw [hceq]
    refine ⟨rfl, ?_, ?_⟩
    · have : lookupA cur.orders oid = some order := by rw [hco]; exact hl
      simp [lookupA_setA, this]
    · intro pid p hlp
      exact hpr pid p hlp

theorem lifecycle_transition_guards_witness :
    payOrder stC "o1" "u1" "customer" = (.error "Order is cancelled", stC) ∧
    cancelOrder neverFail stP "o1" "u1" "customer" =
      (.error "Cannot cancel paid orders. Please contact support for refunds.", stP) ∧
    lookupA (cancelOrder neverFail stP "o1" "u7" "admin").2.products "p1" =
      some { name := "Laptop", price := 1000, stock := 10 } := by
  refine ⟨(lifecycle_transition_guards stC "o1" "u1" "customer"
             { ordW with status := .cancelled } (by decide)).1 (by decide)
             (Or.inr (by decide)),
          (lifecycle_transition_guards stP "o1" "u1" "customer"
             { ordW with status := .paid } (by decide)).2.1 (by decide) (by decide)
             (by decide),
          ?_⟩
  have h := ((lifecycle_transition_guards stP "o1" "u7" "admin"
      { ordW with status := .paid } (by decide)).2.2 (by decide)).2.2 "p1"
      { name := "Laptop", price := 1000, stock := 8 } (by decide)
  exact h

/-- C9 counterexample: the claim says that the order-creation path
itself (not only the external validator) re-asserts non-emptiness and
fails on an empty items list with no order created; but the service
createOrder on an empty items list succeeds, returning an order with no
items and total 0, and stores that order. -/
theorem empty_items_order_created :
    (createOrder stW "o1" "u1" []).1 =
      .ok { userId := "u1", items := [], total := 0, status := .created } ∧
    lookupA (createOrder stW "o1" "u1" []).2.orders "o1" =
      some { userId := "u1", items := [], total := 0, status := .created } := by
  decide

/-- C9 (amended): non-emptiness and positive-quantity validation is
enforced only by the external Zod validator (`CreateOrderZodSchema`)
applied in the HTTP controller before the service runs — an empty list
or a non-positive quantity is rejected there with a validation error and
an unchanged state — while the service-level createOrder performs no
such re-assertion: on an empty items list it succeeds and creates an
order with no items and total 0. -/
theorem controller_validation_only (st : St) (oid uid : String) :
    controllerCreateOrder st oid uid [] = (.error "Validation Error", st) ∧
    (∀ items : List ReqItem, (∃ it ∈ items, it.quantity < 1) →
      controllerCreateOrder st oid uid items = (.error "Validation Error", st)) ∧
    (lookupA st.orders oid = none →
      createOrder st oid uid [] =
        (.ok { userId := uid, items := [], total := 0, status := .created },
         { st with orders := (oid, { userId := uid, items := [], total := 0,
                                     status := .created }) :: st.orders })) := by
  refine ⟨?_, ?_, ?_⟩
  · simp [controllerCreateOrder, zodValidateCreateOrder]
  · intro items hex
    obtain ⟨it, hit, hq⟩ := hex
    have hz : zodValidateCreateOrder items = false := by
      cases hzv : zodValidateCreateOrder items
      · rfl
      · exfalso
        simp only [zodValidateCreateOrder, Bool.and_eq_true, List.all_eq_true] at hzv
        have := hzv.2 it hit
        simp at this
        omega
    simp [controllerCreateOrder, hz]
  · intro hn
    simp [createOrder, reserveLoop, orderCreate, hn, orderDocValid]

theorem controller_validation_only_witness :
    controllerCreateOrder stW "o1" "u1" [] = (.error "Validation Error", stW) ∧
    controllerCreateOrder stW "o1" "u1" [⟨"p1", 0⟩] = (.error "Validation Error", stW) ∧
    createOrder stW "o1" "u1" [] =
      (.ok { userId := "u1", items := [], total := 0, status := .created },
       { stW with orders := [("o1", { userId := "u1", items := [], total := 0,
                                      status := .created })] }) :=
  ⟨(controller_validation_only stW "o1" "u1").1,
   (controller_validation_only stW "o1" "u1").2.1 [⟨"p1", 0⟩]
     ⟨⟨"p1", 0⟩, by decide, by decide⟩,
   (controller_validation_only stW "o1" "u1").2.2 (by decide)⟩

/-- C10: at the public interface, `POST /orders` is guarded by
`authenticate, authorize([UserRole.CUSTOMER])`: an authenticated actor
whose role is not "customer" (admin included) is rejected with a
Forbidden response before the controller's validation or the order
service runs, so the state — orders and product stock — is returned
unchanged.  The `authorize` middleware itself is modelled from the spec
(its source file is not among the provided sources). -/
theorem post_orders_customer_only (st : St) (oid uid role : String)
    (items : List ReqItem) (h : role ≠ "customer") :
    postOrders st oid uid role items = (.forbidden, st) := by
  simp [postOrders, h]

theorem post_orders_customer_only_witness :
    postOrders stW "o1" "u1" "admin" [⟨"p1", 1⟩] = (.forbidden, stW) :=
  post_orders_customer_only stW "o1" "u1" "admin" [⟨"p1", 1⟩] (by decide)

end OrderSvc
